import Mathlib

/-!
Verification development for the BLE log-analysis scripts
(`analyze_ble_logs.py`, `analyze_ble_logs_combine.py`, `live_rssi_plot.py`,
`helper scripts/ble_logs_to_csv.py`).

Lines of text are modelled as `List Char` (one entry per character of the
already-decoded line, newline excluded).  The regular expressions used by the
scripts are all prefix- or substring-anchored patterns over fixed literal
labels followed by a numeric token; they are translated here into explicit
character-list matchers with the same matching semantics (greedy character
classes, rightmost-colon backtracking for the `Delta = .*:` pattern, and the
rule that `.` does not match a newline).  Python `\s` and `str.strip` are
modelled over the ASCII whitespace characters, and Python `int()` applied to
a captured `[-0-9]+` token is modelled by `pyInt?` (returning `none` exactly
when `int()` would raise `ValueError`).  Stateful loops become explicit state
passing; a function that can raise returns an `Option` with `none` for the
exception.  Python floats are modelled as exact rationals (`Rat`), with
`none : Option Rat` standing for `float("nan")`.
-/

namespace BleLogs

/-- ASCII whitespace, modelling Python `\s` and the characters removed by
`str.strip()` on the log lines (space, tab, LF, CR, VT, FF). -/
def pyWS (c : Char) : Bool :=
  c = ' ' || c = Char.ofNat 9 || c = Char.ofNat 10 || c = Char.ofNat 13 ||
  c = Char.ofNat 11 || c = Char.ofNat 12

/-- Model of Python `str.strip()`: drop whitespace from both ends. -/
def pyStrip (l : List Char) : List Char :=
  ((l.dropWhile pyWS).reverse.dropWhile pyWS).reverse

/-- Character class `[-0-9]` used by the `Delta` and `RSSI` capture groups. -/
def isIntChar (c : Char) : Bool := c = '-' || c.isDigit

/-- Numeric value of a nonempty digit string (leading zeros allowed),
as computed by Python `int()` on a digit-only token. -/
def digitsToNat (ds : List Char) : Nat :=
  ds.foldl (fun n c => 10 * n + (c.toNat - 48)) 0

/-- Model of Python `int()` on a token drawn from the class `[-0-9]+`:
an optional single leading minus followed by at least one digit parses to
that integer; any other shape (for example `--5`, `1-2`, `-`) raises
`ValueError`, modelled as `none`. -/
def pyInt? (cs : List Char) : Option Int :=
  match cs with
  | '-' :: ds => if ds ≠ [] ∧ ds.all Char.isDigit then some (-(digitsToNat ds : Int)) else none
  | ds => if ds ≠ [] ∧ ds.all Char.isDigit then some (digitsToNat ds : Int) else none

/-- Literal label of the `RX Unix ms (ESP32):` pattern. -/
def rxUnixLit : List Char := "RX Unix ms (ESP32):".data

/-- Literal label of the `TX counter (payload):` pattern. -/
def txCounterLit : List Char := "TX counter (payload):".data

/-- Literal label of the `TX Unix ms (payload):` pattern. -/
def txUnixLit : List Char := "TX Unix ms (payload):".data

/-- Literal prefix of the `Delta = .*:` pattern. -/
def deltaLit : List Char := "Delta = ".data

/-- Literal label of the `RSSI:` pattern. -/
def rssiLit : List Char := "RSSI:".data

/-- Literal prefix of the scan-cycle marker pattern `=== Scan cycle #(\d+) START`. -/
def scanLit : List Char := "=== Scan cycle #".data

/-- Block-start marker tested with `line.startswith(...)` in the parsers. -/
def blockStartLit : List Char := "=== TARGET BLE DEVICE DETECTED ===".data

/-- Model of `re.match` for the patterns of shape `LABEL\s*([0-9]+)`
(`rx_unix_re`, `tx_counter_re`, `tx_unix_re`): the line must start with the
literal label, then optional whitespace, then at least one digit; the greedy
digit run is the captured (always valid) integer.  Trailing text is ignored,
as `re.match` does not anchor the end. -/
def matchNum (lit : List Char) (line : List Char) : Option Nat :=
  if lit.isPrefixOf line then
    let t := (line.drop lit.length).dropWhile pyWS
    let ds := t.takeWhile Char.isDigit
    if ds ≠ [] then some (digitsToNat ds) else none
  else none

/-- Model of `scan_start_re.match`, pattern `=== Scan cycle #(\d+) START`:
literal prefix, a greedy digit run, then the literal ` START`. -/
def matchScanStart (line : List Char) : Option Nat :=
  if scanLit.isPrefixOf line then
    let t := line.drop scanLit.length
    let ds := t.takeWhile Char.isDigit
    if ds ≠ [] ∧ " START".data.isPrefixOf (t.dropWhile Char.isDigit) then
      some (digitsToNat ds)
    else none
  else none

/-- Model of `rssi_re.match`, pattern `RSSI:\s*([-0-9]+)\s*dBm`: returns the
raw captured `[-0-9]+` token (which `parse_log` then feeds to `int()`). -/
def matchRssi (line : List Char) : Option (List Char) :=
  if rssiLit.isPrefixOf line then
    let t := (line.drop rssiLit.length).dropWhile pyWS
    let cap := t.takeWhile isIntChar
    if cap ≠ [] ∧ "dBm".data.isPrefixOf ((t.dropWhile isIntChar).dropWhile pyWS) then
      some cap
    else none
  else none

/-- Suffix part `\s*([-0-9]+)\s+ms` of the `Delta` pattern, applied to the
text following a candidate colon.  After the greedy `[-0-9]+` run the next
character must be whitespace (at least one, per `\s+`) and then `ms`. -/
def deltaTail (cs : List Char) : Option (List Char) :=
  let t := cs.dropWhile pyWS
  let cap := t.takeWhile isIntChar
  let rest := t.dropWhile isIntChar
  if cap ≠ [] ∧ (rest.takeWhile pyWS) ≠ [] ∧ "ms".data.isPrefixOf (rest.dropWhile pyWS) then
    some cap
  else none

/-- Backtracking search for the greedy `.*:` of `delta_re`: the regex engine
commits to the rightmost colon whose suffix matches `\s*([-0-9]+)\s+ms`, and
`.` never matches a newline, so no colon beyond a newline is eligible. -/
def deltaScan : List Char → Option (List Char)
  | [] => none
  | c :: cs =>
    if c = Char.ofNat 10 then none
    else
      match deltaScan cs with
      | some cap => some cap
      | none => if c = ':' then deltaTail cs else none

/-- Model of `delta_re.match`, pattern `Delta = .*:\s*([-0-9]+)\s+ms`:
literal prefix `Delta = `, then the rightmost colon wins.  Returns the raw
captured token for `int()`. -/
def matchDelta (line : List Char) : Option (List Char) :=
  if deltaLit.isPrefixOf line then deltaScan (line.drop deltaLit.length) else none

/-- One parsed packet record, as built by `parse_log` in
`analyze_ble_logs.py` / `analyze_ble_logs_combine.py`.  Every field is
optional: a `none` models the dictionary key being absent (or, for
`scan_cycle`, the Python value `None`). -/
structure PRec where
  file : Option String := none
  scan_cycle : Option Nat := none
  rx_unix_ms : Option Nat := none
  tx_counter : Option Nat := none
  tx_unix_ms : Option Nat := none
  delta_ms : Option Int := none
  rssi_dbm : Option Int := none
deriving DecidableEq, Repr

/-- Mutable state of the `parse_log` loop: the accumulated `records` list,
the last seen `scan_cycle`, and the in-progress `current` record. -/
structure ParseState where
  records : List PRec
  scan_cycle : Option Nat
  current : Option PRec
deriving DecidableEq, Repr

/-- Finalize `cur` exactly as the flush sites of `parse_log` do: tag it with
the file name and the current scan cycle, then append it to `records`. -/
def flushRec (file : String) (sc : Option Nat) (cur : PRec) (records : List PRec) : List PRec :=
  records ++ [{ cur with file := some file, scan_cycle := sc }]

/-- Flush-if-complete of `parse_log`: the guarded
`if current and "rssi_dbm" in current` append that appears both at a
block-start marker (lines 40-44) and in the flush-on-close epilogue
(lines 90-94). -/
def finalFlush (file : String) (st : ParseState) : List PRec :=
  match st.current with
  | some cur =>
    if cur.rssi_dbm.isSome then flushRec file st.scan_cycle cur st.records else st.records
  | none => st.records

/-- One iteration of the `parse_log` line loop (lines 28-88 of
`analyze_ble_logs.py`, identical in `analyze_ble_logs_combine.py`), applied
to the raw line.  Returns `none` when the iteration raises, which happens
exactly when `int()` is applied to an invalid `[-0-9]+` capture of the
`Delta` or `RSSI` pattern. -/
def stepLine (file : String) (st : ParseState) (raw : List Char) : Option ParseState :=
  let line := pyStrip raw
  match matchScanStart line with
  | some n => some { st with scan_cycle := some n }
  | none =>
    if blockStartLit.isPrefixOf line then
      some { records := finalFlush file st, scan_cycle := st.scan_cycle,
             current := some { scan_cycle := st.scan_cycle } }
    else
      match st.current with
      | none => some st
      | some cur =>
        match matchNum rxUnixLit line with
        | some v => some { st with current := some { cur with rx_unix_ms := some v } }
        | none =>
          match matchNum txCounterLit line with
          | some v => some { st with current := some { cur with tx_counter := some v } }
          | none =>
            match matchNum txUnixLit line with
            | some v => some { st with current := some { cur with tx_unix_ms := some v } }
            | none =>
              match matchDelta line with
              | some cap =>
                match pyInt? cap with
                | some v => some { st with current := some { cur with delta_ms := some v } }
                | none => none
              | none =>
                match matchRssi line with
                | some cap =>
                  match pyInt? cap with
                  | some v => some { st with current := some { cur with rssi_dbm := some v } }
                  | none => none
                | none =>
                  if line = [] ∧ cur.rssi_dbm.isSome then
                    some { records := flushRec file st.scan_cycle cur st.records,
                           scan_cycle := st.scan_cycle, current := none }
                  else some st

/-- Run `stepLine` over the whole line sequence, propagating an exception. -/
def runLines (file : String) : ParseState → List (List Char) → Option ParseState
  | st, [] => some st
  | st, l :: ls =>
    match stepLine file st l with
    | some st2 => runLines file st2 ls
    | none => none

/-- Model of `parse_log` from `analyze_ble_logs.py` (and its identical copy
in `analyze_ble_logs_combine.py`): fold the line loop from the initial state
and flush the last record if complete.  `none` models the function raising. -/
def parseLog (file : String) (lines : List (List Char)) : Option (List PRec) :=
  (runLines file ⟨[], none, none⟩ lines).map (finalFlush file)

/-- Sort key of `summarize_records`: `r.get("tx_unix_ms", 0)`. -/
def sortKey (r : PRec) : Nat := r.tx_unix_ms.getD 0

/-- Comparison relation of the sort: ascending in the key. -/
def keyLE (a b : PRec) : Prop := sortKey a ≤ sortKey b

instance : DecidableRel keyLE := fun a b => Nat.decLe (sortKey a) (sortKey b)

instance : IsTotal PRec keyLE := ⟨fun a b => Nat.le_total (sortKey a) (sortKey b)⟩

instance : IsTrans PRec keyLE := ⟨fun _ _ _ => Nat.le_trans⟩

/-- Model of `sorted(records, key=lambda r: r.get("tx_unix_ms", 0))`.
Python `sorted` is a stable ascending sort by the key; a stable sort's
output is uniquely determined by the key order and the input order, and
`List.insertionSort` with the `≤`-key relation computes exactly that
stable order. -/
def sortRecs (records : List PRec) : List PRec :=
  List.insertionSort keyLE records

/-- Model of `sum(vals) / len(vals) if vals else float("nan")`, with Python
floats idealized as exact rationals and NaN as `none`. -/
def pyMean? (vals : List Int) : Option Rat :=
  if vals ≠ [] then some ((vals.sum : Rat) / (vals.length : Rat)) else none

/-- Python truthiness of `first_tx` / `last_tx` in the time-span guard
`if first_tx and last_tx`: `None` and `0` are both falsy. -/
def pyTruthyNat : Option Nat → Bool
  | some v => v != 0
  | none => false

/-- All values computed by the non-empty branch of `summarize_records`
(printed summary plus the returned tuple). -/
structure FullMetrics where
  n : Nat
  meanRssi : Option Rat
  minRssi : Option Int
  maxRssi : Option Int
  meanDelta : Option Rat
  minDelta : Option Int
  maxDelta : Option Int
  firstCounter : Nat
  lastCounter : Nat
  lossCount : Int
  lossPct : Option Rat
  durationS : Option Rat
deriving DecidableEq, Repr

/-- Result of one `summarize_records` call: the early-return of the empty
branch (lines 104-107 of `analyze_ble_logs_combine.py`, which reports
`(0, nan, expected_count, 100.0)`) or the full metrics of the non-empty
branch. -/
inductive Summary where
  | noPackets (n : Nat) (meanRssi : Option Rat) (lossCount : Int) (lossPct : Rat)
  | packets (m : FullMetrics)
deriving DecidableEq, Repr

/-- Loss count reported by either branch of `summarize_records`. -/
def Summary.lossCount : Summary → Int
  | .noPackets _ _ lc _ => lc
  | .packets m => m.lossCount

/-- Loss percentage reported by either branch of `summarize_records`
(`none` models `float("nan")`). -/
def Summary.lossPct : Summary → Option Rat
  | .noPackets _ _ _ lp => some lp
  | .packets m => m.lossPct

/-- Model of `summarize_records(records, label, expected_count)` from
`analyze_ble_logs_combine.py` (lines 99-144; the copy in
`analyze_ble_logs.py` is the same with `expected_count` fixed to 200).
The outer `none` models the call raising: `first_counter = counters[0]`
raises `IndexError` when no record carries a `tx_counter`. -/
def summarize (expected_count : Int) (records : List PRec) : Option Summary :=
  if records = [] then some (.noPackets 0 none expected_count 100)
  else
    let s := sortRecs records
    let rssiVals := s.filterMap (·.rssi_dbm)
    let deltaVals := s.filterMap (·.delta_ms)
    let counters := s.filterMap (·.tx_counter)
    let n := s.length
    match counters with
    | [] => none
    | c0 :: cs =>
      let lossCount : Int := max (expected_count - (n : Int)) 0
      let firstTx := s.head?.bind (·.tx_unix_ms)
      let lastTx := s.getLast?.bind (·.tx_unix_ms)
      some (.packets
        { n := n
          meanRssi := pyMean? rssiVals
          minRssi := rssiVals.min?
          maxRssi := rssiVals.max?
          meanDelta := pyMean? deltaVals
          minDelta := deltaVals.min?
          maxDelta := deltaVals.max?
          firstCounter := c0
          lastCounter := (c0 :: cs).getLast (List.cons_ne_nil c0 cs)
          lossCount := lossCount
          lossPct :=
            if expected_count > 0 then
              some ((lossCount : Rat) / (expected_count : Rat) * 100)
            else none
          durationS :=
            if pyTruthyNat firstTx && pyTruthyNat lastTx then
              some ((((lastTx.getD 0 : Int) - (firstTx.getD 0 : Int) : Int) : Rat) / 1000)
            else none })

/-- Virtual x-indices of `plot_combined_rssi_vs_counter` (lines 193-202 of
`analyze_ble_logs_combine.py`): each session of `all_sequences` contributes
`xs = [current_offset + i for i in range(len(x_list))]`, and when `xs` is
nonempty the next offset becomes `xs[-1] + 5`. -/
def combinedXs : Nat → List (List Int × List Int) → List (List Nat)
  | _, [] => []
  | offset, (xl, _) :: rest =>
    let xs := (List.range xl.length).map (fun i => offset + i)
    xs :: combinedXs (match xs.getLast? with | some last => last + 5 | none => offset) rest

/-- The pair of parallel deques `counters` / `rssis` of `live_rssi_plot.py`. -/
structure LiveBuffer where
  counters : List Int
  rssis : List Int
deriving DecidableEq, Repr

/-- Append-then-evict of `serial_reader` (lines 45-49 of
`live_rssi_plot.py`): append the pair to both deques, then if
`len(counters) > max_points` pop the left (oldest) element of both. -/
def bufferAppend (maxPoints : Nat) (b : LiveBuffer) (p : Int × Int) : LiveBuffer :=
  let cs := b.counters ++ [p.1]
  let rs := b.rssis ++ [p.2]
  if cs.length > maxPoints then ⟨cs.tail, rs.tail⟩ else ⟨cs, rs⟩

/-- Model of `COUNTER_RE.search(line)`: try the anchored pattern
`TX counter \(payload\):\s*([0-9]+)` at every start position, leftmost
success wins; `None` when no position matches (in particular on the empty
string). -/
def searchCounter : List Char → Option Nat
  | [] => none
  | c :: cs =>
    match matchNum txCounterLit (c :: cs) with
    | some v => some v
    | none => searchCounter cs

/-- Model of `RSSI_RE.search(line)`: leftmost position where
`RSSI:\s*([-0-9]+)\s*dBm` matches; returns the raw capture for `int()`. -/
def searchRssi : List Char → Option (List Char)
  | [] => none
  | c :: cs =>
    match matchRssi (c :: cs) with
    | some cap => some cap
    | none => searchRssi cs

/-- State of the `serial_reader` loop: the two pending field slots and the
shared buffer. -/
structure LiveState where
  curCounter : Option Int
  curRssi : Option Int
  buf : LiveBuffer
deriving DecidableEq, Repr

/-- The pair-completion check of `serial_reader` (lines 43-51): when both
slots are filled, append the pair to the buffer (with eviction) and clear
both slots. -/
def liveFlush (maxPoints : Nat) (s : LiveState) : LiveState :=
  match s.curCounter, s.curRssi with
  | some c, some r => ⟨none, none, bufferAppend maxPoints s.buf (c, r)⟩
  | _, _ => s

/-- One iteration of the `serial_reader` line loop (lines 33-51 of
`live_rssi_plot.py`) on a decoded line.  Both regex searches are applied to
the same line.  If `int()` on the RSSI capture raises, the loop's
`except` clause swallows the error after the counter slot was already
updated, and the append check of that iteration is skipped. -/
def liveStep (maxPoints : Nat) (s : LiveState) (raw : List Char) : LiveState :=
  let line := pyStrip raw
  let c1 : Option Int :=
    match searchCounter line with
    | some v => some (v : Int)
    | none => s.curCounter
  match searchRssi line with
  | some cap =>
    match pyInt? cap with
    | some v => liveFlush maxPoints { s with curCounter := c1, curRssi := some v }
    | none => { s with curCounter := c1 }
  | none => liveFlush maxPoints { s with curCounter := c1 }

/-- One record of `helper scripts/ble_logs_to_csv.py`: the parse there keys
records directly by the CSV column names. -/
structure CsvRec where
  tx_unix_ms_phone : Option Int := none
  rx_unix_ms_esp32 : Option Int := none
  payload_counter : Option Int := none
  delta_ms : Option Int := none
  rssi_dbm : Option Int := none
  tx_device_name : Option String := none
deriving DecidableEq, Repr

/-- The fixed `header` list of `write_csv`. -/
def csvHeader : List String :=
  ["tx_unix_ms(phone)", "rx_unix_ms(esp32)", "payload_counter",
   "delta_ms", "rssi_dbm", "tx_device_name"]

/-- Cell rendering of `r.get(col, "")` for an integer column: `str()` of
the value when present, the empty string when absent. -/
def csvCellInt : Option Int → String
  | some v => toString v
  | none => ""

/-- Cell rendering of `r.get(col, "")` for the device-name column. -/
def csvCellStr : Option String → String
  | some s => s
  | none => ""

/-- One CSV data row as emitted by `writer.writerow` via `csv.DictWriter`
with `fieldnames=header`: the six cells in header order, absent fields as
the empty string. -/
def csvRow (r : CsvRec) : List String :=
  [csvCellInt r.tx_unix_ms_phone, csvCellInt r.rx_unix_ms_esp32,
   csvCellInt r.payload_counter, csvCellInt r.delta_ms,
   csvCellInt r.rssi_dbm, csvCellStr r.tx_device_name]

/-- Model of `write_csv(records, out_path)` from
`helper scripts/ble_logs_to_csv.py` (lines 76-98): with no records the file
is skipped entirely (`none`); otherwise the header row followed by one row
per record. -/
def writeCsv (records : List CsvRec) : Option (List (List String)) :=
  if records = [] then none else some (csvHeader :: records.map csvRow)


lemma mem_flushRec {file : String} {sc : Option Nat} {cur : PRec} {records : List PRec}
    {r : PRec} (h : r ∈ flushRec file sc cur records) :
    r ∈ records ∨ r.rssi_dbm = cur.rssi_dbm := by
  rcases List.mem_append.1 h with h | h
  · exact Or.inl h
  · simp only [List.mem_singleton] at h
    subst h
    exact Or.inr rfl

lemma mem_finalFlush {file : String} {st : ParseState} {r : PRec}
    (h : r ∈ finalFlush file st) : r ∈ st.records ∨ r.rssi_dbm.isSome := by
  unfold finalFlush at h
  cases hcur : st.current with
  | none => simp only [hcur] at h; exact Or.inl h
  | some cur =>
    simp only [hcur] at h
    by_cases hc : cur.rssi_dbm.isSome
    · rw [if_pos hc] at h
      rcases mem_flushRec h with h | h
      · exact Or.inl h
      · exact Or.inr (h ▸ hc)
    · rw [if_neg hc] at h
      exact Or.inl h

lemma stepLine_records {file : String} {st : ParseState} {raw : List Char} {st2 : ParseState}
    (h : stepLine file st raw = some st2) :
    ∀ r ∈ st2.records, r ∈ st.records ∨ r.rssi_dbm.isSome := by
  intro r hr
  unfold stepLine at h
  cases hms : matchScanStart (pyStrip raw) with
  | some n =>
    simp only [hms, Option.some.injEq] at h
    subst h
    exact Or.inl hr
  | none =>
  simp only [hms] at h
  by_cases hbs : blockStartLit.isPrefixOf (pyStrip raw)
  · rw [if_pos hbs] at h
    simp only [Option.some.injEq] at h
    subst h
    exact mem_finalFlush hr
  · rw [if_neg hbs] at h
    cases hcur : st.current with
    | none =>
      simp only [hcur, Option.some.injEq] at h
      subst h
      exact Or.inl hr
    | some cur =>
    simp only [hcur] at h
    cases h1 : matchNum rxUnixLit (pyStrip raw) with
    | some v =>
      simp only [h1, Option.some.injEq] at h
      subst h
      exact Or.inl hr
    | none =>
    simp only [h1] at h
    cases h2 : matchNum txCounterLit (pyStrip raw) with
    | some v =>
      simp only [h2, Option.some.injEq] at h
      subst h
      exact Or.inl hr
    | none =>
    simp only [h2] at h
    cases h3 : matchNum txUnixLit (pyStrip raw) with
    | some v =>
      simp only [h3, Option.some.injEq] at h
      subst h
      exact Or.inl hr
    | none =>
    simp only [h3] at h
    cases h4 : matchDelta (pyStrip raw) with
    | some cap =>
      simp only [h4] at h
      cases h5 : pyInt? cap with
      | some v =>
        simp only [h5, Option.some.injEq] at h
        subst h
        exact Or.inl hr
      | none => simp only [h5, reduceCtorEq] at h
    | none =>
    simp only [h4] at h
    cases h6 : matchRssi (pyStrip raw) with
    | some cap =>
      simp only [h6] at h
      cases h7 : pyInt? cap with
      | some v =>
        simp only [h7, Option.some.injEq] at h
        subst h
        exact Or.inl hr
      | none => simp only [h7, reduceCtorEq] at h
    | none =>
    simp only [h6] at h
    by_cases h8 : pyStrip raw = [] ∧ cur.rssi_dbm.isSome
    · rw [if_pos h8] at h
      simp only [Option.some.injEq] at h
      subst h
      rcases mem_flushRec hr with h' | h'
      · exact Or.inl h'
      · exact Or.inr (h' ▸ h8.2)
    · rw [if_neg h8] at h
      simp only [Option.some.injEq] at h
      subst h
      exact Or.inl hr

lemma runLines_inv {file : String} : ∀ {lines : List (List Char)} {st st2 : ParseState},
    runLines file st lines = some st2 →
    (∀ r ∈ st.records, r.rssi_dbm.isSome) → ∀ r ∈ st2.records, r.rssi_dbm.isSome := by
  intro lines
  induction lines with
  | nil =>
    intro st st2 h hi
    unfold runLines at h
    simp only [Option.some.injEq] at h
    subst h
    exact hi
  | cons l ls ih =>
    intro st st2 h hi
    unfold runLines at h
    cases hs : stepLine file st l with
    | none => rw [hs] at h; exact absurd h (by simp)
    | some st1 =>
      rw [hs] at h
      refine ih h ?_
      intro r hr
      rcases stepLine_records hs r hr with h' | h'
      · exact hi r h'
      · exact h'

/-- Claim C1: every record emitted by `parse_log` has the `rssi_dbm` field
present — a record lacking it is dropped at a block-start marker, a blank
line, or end of input, for every input line sequence on which the function
returns. -/
theorem parse_log_only_complete (file : String) (lines : List (List Char))
    (recs : List PRec) (h : parseLog file lines = some recs) :
    ∀ r ∈ recs, r.rssi_dbm.isSome := by
  intro r hr
  unfold parseLog at h
  cases hs : runLines file ⟨[], none, none⟩ lines with
  | none => rw [hs] at h; exact absurd h (by simp)
  | some st =>
    rw [hs] at h
    simp only [Option.map_some', Option.some.injEq] at h
    subst h
    rcases mem_finalFlush hr with h' | h'
    · exact runLines_inv hs (by intro r hr'; simp at hr') r h'
    · exact h'




/-- Concrete input lines used by the witness of claim C1. -/
def wLines : List (List Char) :=
  ["=== TARGET BLE DEVICE DETECTED ===".data, "RSSI: -41 dBm".data, "".data]

/-- The single record emitted for `wLines`. -/
def wRec : PRec := { file := some "w", rssi_dbm := some (-41) }

/-- Witness for claim C1: the theorem applied to a concrete one-block input
whose single emitted record is `wRec`. -/
theorem parse_log_only_complete_witness : (PRec.rssi_dbm wRec).isSome :=
  parse_log_only_complete "w" wLines [wRec] (by decide) wRec (by simp)

/-- The input of end-to-end scenario 1: one block-start marker, the five
field lines, then a blank line. -/
def demoLines : List (List Char) :=
  ["=== TARGET BLE DEVICE DETECTED ===".data,
   "RX Unix ms (ESP32): 1000".data,
   "TX counter (payload): 5".data,
   "TX Unix ms (payload): 990".data,
   "Delta = x: 10 ms".data,
   "RSSI: -60 dBm".data,
   "".data]

/-- Claim C7: parsing one block containing `RX Unix ms (ESP32): 1000`,
`TX counter (payload): 5`, `TX Unix ms (payload): 990`, `Delta = x: 10 ms`,
`RSSI: -60 dBm` and a trailing blank line emits exactly one record, with the
session file tag and all five numeric fields set and `rssi_dbm = -60`
(no scan-cycle marker appears in the input, so `scan_cycle` is `None`). -/
theorem parse_single_block_all_fields :
    parseLog "log" demoLines =
      some [{ file := some "log", scan_cycle := none, rx_unix_ms := some 1000,
              tx_counter := some 5, tx_unix_ms := some 990, delta_ms := some 10,
              rssi_dbm := some (-60) }] := by decide

-- Counterexample records
/-- A complete record (has `rssi_dbm`) with no `tx_counter`. -/
def recNoCounter : PRec := { rssi_dbm := some (-60) }
/-- Record with the earliest timestamp but no counter. -/
def recEarlyNoCounter : PRec := { tx_unix_ms := some 1, rssi_dbm := some (-50) }
/-- Record with a later timestamp that does carry a counter. -/
def recLateCounter : PRec := { tx_unix_ms := some 2, tx_counter := some 7, rssi_dbm := some (-55) }

/-- Accessor: the reported first counter of the non-empty branch, if any. -/
def Summary.firstCounter? : Summary → Option Nat
  | .noPackets _ _ _ _ => none
  | .packets m => some m.firstCounter

/-- Counterexample to claim C2: at `expectedCount = 0` with an empty record
list, `summarize_records` reports `lossPct = 100.0` through its early-return
branch, not NaN, so the NaN-at-zero clause fails at `n = 0`. -/
theorem summarize_zero_expected_empty_cex :
    Option.map Summary.lossPct (summarize 0 []) = some (some 100) ∧
    Option.map Summary.lossPct (summarize 0 []) ≠ some none := by decide

/-- Counterexample to claim C3: the reported first counter is `7`, taken
from the second sorted record, while the record at the minimum `txTimeMs`
position of the sorted order has no counter at all — so the reported value
is not the counter of the min-position record. -/
theorem summarize_first_counter_cex :
    Option.map Summary.firstCounter? (summarize 200 [recEarlyNoCounter, recLateCounter]) =
      some (some 7) ∧
    (sortRecs [recEarlyNoCounter, recLateCounter]).head?.map PRec.tx_counter = some none := by
  decide

/-- Counterexample to claim C6: for a non-empty list holding one complete
record (it has `rssi_dbm`) but no `tx_counter`, `summarize_records` raises
`IndexError` at `counters[0]` (modelled as `none`) instead of reporting. -/
theorem summarize_raises_cex :
    summarize 200 [recNoCounter] = none ∧ (PRec.rssi_dbm recNoCounter).isSome := by decide

/-- Counterexample to claim C5: with session A contributing 3 points at
virtual indices 0, 1, 2, session B's two points occupy indices 7 and 8
(the next offset is `xs[-1] + 5 = 2 + 5 = 7`), not 8 and 9. -/
theorem combined_gap_cex :
    combinedXs 0 [(([1, 2, 3] : List Int), ([-50, -51, -52] : List Int)),
                  (([4, 5] : List Int), ([-53, -54] : List Int))] = [[0, 1, 2], [7, 8]] ∧
    combinedXs 0 [(([1, 2, 3] : List Int), ([-50, -51, -52] : List Int)),
                  (([4, 5] : List Int), ([-53, -54] : List Int))] ≠ [[0, 1, 2], [8, 9]] := by
  decide

/-- Counterexample to claim C8: the live reader applies both searches to
the same line with no first-match-wins, so the single line
`TX counter (payload): 5 RSSI: -60 dBm` writes both fields and immediately
appends the pair (5, -60) to the buffer. -/
theorem live_two_fields_one_line_cex :
    liveStep 500 ⟨none, none, ⟨[], []⟩⟩ "TX counter (payload): 5 RSSI: -60 dBm".data =
      ⟨none, none, ⟨[5], [-60]⟩⟩ := by decide


lemma sortRecs_perm (records : List PRec) : (sortRecs records).Perm records :=
  List.perm_insertionSort keyLE records

lemma sortRecs_length (records : List PRec) : (sortRecs records).length = records.length :=
  (sortRecs_perm records).length_eq

lemma sortRecs_sorted (records : List PRec) : List.Pairwise keyLE (sortRecs records) :=
  List.sorted_insertionSort keyLE records

lemma summarize_eq_packets {e : Int} {records : List PRec} (hne : records ≠ []) {c0 : Nat}
    {cs : List Nat} (hc : (sortRecs records).filterMap PRec.tx_counter = c0 :: cs) :
    summarize e records = some (.packets
      { n := (sortRecs records).length
        meanRssi := pyMean? ((sortRecs records).filterMap PRec.rssi_dbm)
        minRssi := ((sortRecs records).filterMap PRec.rssi_dbm).min?
        maxRssi := ((sortRecs records).filterMap PRec.rssi_dbm).max?
        meanDelta := pyMean? ((sortRecs records).filterMap PRec.delta_ms)
        minDelta := ((sortRecs records).filterMap PRec.delta_ms).min?
        maxDelta := ((sortRecs records).filterMap PRec.delta_ms).max?
        firstCounter := c0
        lastCounter := (c0 :: cs).getLast (List.cons_ne_nil c0 cs)
        lossCount := max (e - ((sortRecs records).length : Int)) 0
        lossPct :=
          if e > 0 then
            some (((max (e - ((sortRecs records).length : Int)) 0 : Int) : Rat) / (e : Rat) * 100)
          else none
        durationS :=
          if pyTruthyNat ((sortRecs records).head?.bind PRec.tx_unix_ms) &&
             pyTruthyNat ((sortRecs records).getLast?.bind PRec.tx_unix_ms) then
            some ((((((sortRecs records).getLast?.bind PRec.tx_unix_ms).getD 0 : Int) -
                   (((sortRecs records).head?.bind PRec.tx_unix_ms).getD 0 : Int) : Int) : Rat) / 1000)
          else none }) := by
  unfold summarize
  rw [if_neg hne]
  simp only [hc]



lemma int_min?_eq_some_iff {l : List Int} {a : Int} :
    l.min? = some a ↔ a ∈ l ∧ ∀ b ∈ l, a ≤ b := by
  haveI : Std.Antisymm ((· : Int) ≤ ·) := ⟨fun h h2 => le_antisymm h h2⟩
  exact List.min?_eq_some_iff (fun _ => le_refl _) min_choice (fun _ _ _ => le_min_iff)

lemma int_max?_eq_some_iff {l : List Int} {a : Int} :
    l.max? = some a ↔ a ∈ l ∧ ∀ b ∈ l, b ≤ a := by
  haveI : Std.Antisymm ((· : Int) ≤ ·) := ⟨fun h h2 => le_antisymm h h2⟩
  exact List.max?_eq_some_iff (fun _ => le_refl _) max_choice (fun _ _ _ => max_le_iff)

lemma min?_perm {l l2 : List Int} (h : l.Perm l2) : l.min? = l2.min? := by
  cases hm : l.min? with
  | none =>
    rw [List.min?_eq_none_iff] at hm
    subst hm
    rw [List.min?_eq_none_iff.2 h.symm.eq_nil]
  | some a =>
    rw [int_min?_eq_some_iff] at hm
    exact (int_min?_eq_some_iff.2 ⟨h.mem_iff.1 hm.1, fun b hb => hm.2 b (h.mem_iff.2 hb)⟩).symm

lemma max?_perm {l l2 : List Int} (h : l.Perm l2) : l.max? = l2.max? := by
  cases hm : l.max? with
  | none =>
    rw [List.max?_eq_none_iff] at hm
    subst hm
    rw [List.max?_eq_none_iff.2 h.symm.eq_nil]
  | some a =>
    rw [int_max?_eq_some_iff] at hm
    exact (int_max?_eq_some_iff.2 ⟨h.mem_iff.1 hm.1, fun b hb => hm.2 b (h.mem_iff.2 hb)⟩).symm

lemma pyMean?_perm {l l2 : List Int} (h : l.Perm l2) : pyMean? l = pyMean? l2 := by
  have hiff : l = [] ↔ l2 = [] :=
    ⟨fun he => ((he ▸ h : ([] : List Int).Perm l2).symm).eq_nil,
     fun he => (he ▸ h : l.Perm ([] : List Int)).eq_nil⟩
  unfold pyMean?
  rw [h.sum_eq, h.length_eq]
  by_cases hl : l2 = []
  · rw [if_neg (by simp [hiff.2 hl]), if_neg (by simp [hl])]
  · rw [if_pos (hiff.not.2 hl), if_pos hl]

lemma summarize_packets_exists {e : Int} {records : List PRec} (hne : records ≠ [])
    (hex : ∃ r ∈ records, (PRec.tx_counter r).isSome) :
    ∃ m, summarize e records = some (.packets m) := by
  obtain ⟨r, hr, hs⟩ := hex
  have hr2 : r ∈ sortRecs records := (sortRecs_perm records).mem_iff.2 hr
  have hnn : (sortRecs records).filterMap PRec.tx_counter ≠ [] := by
    simp only [ne_eq, List.filterMap_eq_nil_iff]
    intro hall
    rw [hall r hr2] at hs
    simp at hs
  cases hc : (sortRecs records).filterMap PRec.tx_counter with
  | nil => exact absurd hc hnn
  | cons c0 cs2 => exact ⟨_, summarize_eq_packets hne hc⟩


lemma summarize_eq_none {e : Int} {records : List PRec} (hne : records ≠ [])
    (hc : (sortRecs records).filterMap PRec.tx_counter = []) :
    summarize e records = none := by
  unfold summarize
  rw [if_neg hne]
  simp only [hc]

lemma head?_bind_eq_filterMap {α β : Type} (f : α → Option β) :
    ∀ (l : List α), (∀ r ∈ l, (f r).isSome) → l.head?.bind f = (l.filterMap f).head?
  | [], _ => rfl
  | a :: l, h => by
    obtain ⟨v, hv⟩ := Option.isSome_iff_exists.1 (h a (List.mem_cons_self a l))
    simp [List.filterMap_cons, hv]

lemma getLast?_bind_eq_filterMap {α β : Type} (f : α → Option β) :
    ∀ (l : List α), (∀ r ∈ l, (f r).isSome) → l.getLast?.bind f = (l.filterMap f).getLast?
  | [], _ => rfl
  | [a], h => by
    obtain ⟨v, hv⟩ := Option.isSome_iff_exists.1 (h a (List.mem_cons_self a []))
    simp [List.filterMap_cons, hv]
  | a :: b :: l, h => by
    obtain ⟨v, hv⟩ := Option.isSome_iff_exists.1 (h a (List.mem_cons_self a (b :: l)))
    obtain ⟨w, hw⟩ := Option.isSome_iff_exists.1 (h b (by simp))
    have ih := getLast?_bind_eq_filterMap f (b :: l)
      (fun r hr => h r (List.mem_cons_of_mem a hr))
    calc (a :: b :: l).getLast?.bind f
        = (b :: l).getLast?.bind f := by rw [List.getLast?_cons_cons]
      _ = ((b :: l).filterMap f).getLast? := ih
      _ = ((a :: b :: l).filterMap f).getLast? := by
          simp only [List.filterMap_cons, hv, hw, List.getLast?_cons_cons]

/-- Claim C2, amended: for a non-empty record list `summarize_records`
computes `lossCount = max(e - n, 0)` and
`lossPct = lossCount / e * 100` with NaN when `e ≤ 0` (so in particular at
`e = 0`); for an empty record list the early-return branch reports
`lossCount = e` and `lossPct = 100.0` regardless of `e`, so the NaN clause
does not apply there; for `e = 200` and `n = 150` the result is
`lossCount = 50` and `lossPct = 25.0`. -/
theorem summarize_loss_formula :
    (∀ (e : Int) (records : List PRec) (s : Summary), records ≠ [] →
      summarize e records = some s →
      s.lossCount = max (e - (records.length : Int)) 0 ∧
      s.lossPct = if e > 0 then some ((s.lossCount : Rat) / (e : Rat) * 100) else none) ∧
    (∀ (e : Int) (s : Summary), summarize e [] = some s →
      s.lossCount = e ∧ s.lossPct = some 100) ∧
    (∃ s : Summary, summarize 200 (List.replicate 150 recLateCounter) = some s ∧
      s.lossCount = 50 ∧ s.lossPct = some 25) := by
  have part1 : ∀ (e : Int) (records : List PRec) (s : Summary), records ≠ [] →
      summarize e records = some s →
      s.lossCount = max (e - (records.length : Int)) 0 ∧
      s.lossPct = if e > 0 then some ((s.lossCount : Rat) / (e : Rat) * 100) else none := by
    intro e records s hne h
    cases hc : (sortRecs records).filterMap PRec.tx_counter with
    | nil => rw [summarize_eq_none hne hc] at h; cases h
    | cons c0 cs =>
      rw [summarize_eq_packets hne hc] at h
      obtain rfl := (Option.some.inj h).symm
      constructor
      · simp [Summary.lossCount, sortRecs_length]
      · simp [Summary.lossPct, Summary.lossCount, sortRecs_length]
  refine ⟨part1, ?_, ?_⟩
  · intro e s h
    unfold summarize at h
    rw [if_pos rfl] at h
    obtain rfl := (Option.some.inj h).symm
    exact ⟨rfl, rfl⟩
  · have hne : List.replicate 150 recLateCounter ≠ [] := by simp
    obtain ⟨m, hm⟩ := @summarize_packets_exists 200 _ hne
      ⟨recLateCounter, List.mem_replicate.2 ⟨by norm_num, rfl⟩, by decide⟩
    obtain ⟨h1, h2⟩ := part1 200 _ _ hne hm
    rw [List.length_replicate] at h1
    refine ⟨.packets m, hm, ?_, ?_⟩
    · rw [h1]; norm_num
    · rw [h2, h1]; norm_num

/-- Claim C3, amended: the aggregator sorts by `txTimeMs` ascending with a
missing timestamp treated as zero, and the reported first/last counters are
the counters of the earliest/latest records in that sorted order among the
records that have `tx_counter`; when every record has `tx_counter` these are
exactly the records at the minimum/maximum sorted positions, and the time
span is computed from the head and last of the same sorted order. -/
theorem summarize_order_invariant :
    ∀ (e : Int) (records : List PRec) (m : FullMetrics),
      summarize e records = some (.packets m) →
      List.Pairwise keyLE (sortRecs records) ∧
      (sortRecs records).Perm records ∧
      ((sortRecs records).filterMap PRec.tx_counter).head? = some m.firstCounter ∧
      ((sortRecs records).filterMap PRec.tx_counter).getLast? = some m.lastCounter ∧
      ((∀ r ∈ records, (PRec.tx_counter r).isSome) →
        (sortRecs records).head?.bind PRec.tx_counter = some m.firstCounter ∧
        (sortRecs records).getLast?.bind PRec.tx_counter = some m.lastCounter) ∧
      m.durationS =
        (if pyTruthyNat ((sortRecs records).head?.bind PRec.tx_unix_ms) &&
            pyTruthyNat ((sortRecs records).getLast?.bind PRec.tx_unix_ms) then
          some ((((((sortRecs records).getLast?.bind PRec.tx_unix_ms).getD 0 : Int) -
                 (((sortRecs records).head?.bind PRec.tx_unix_ms).getD 0 : Int) : Int) : Rat) / 1000)
        else none) := by
  intro e records m h
  have hne : records ≠ [] := by
    intro he
    subst he
    unfold summarize at h
    rw [if_pos rfl] at h
    cases Option.some.inj h
  cases hc : (sortRecs records).filterMap PRec.tx_counter with
  | nil => rw [summarize_eq_none hne hc] at h; cases h
  | cons c0 cs =>
    rw [summarize_eq_packets hne hc] at h
    obtain rfl := (Summary.packets.inj (Option.some.inj h)).symm
    refine ⟨sortRecs_sorted records, sortRecs_perm records, rfl, ?_, ?_, rfl⟩
    · exact List.getLast?_eq_getLast (c0 :: cs) (List.cons_ne_nil c0 cs)
    · intro hall
      have hall2 : ∀ r ∈ sortRecs records, (PRec.tx_counter r).isSome :=
        fun r hr => hall r ((sortRecs_perm records).mem_iff.1 hr)
      constructor
      · rw [head?_bind_eq_filterMap PRec.tx_counter (sortRecs records) hall2, hc]
        rfl
      · rw [getLast?_bind_eq_filterMap PRec.tx_counter (sortRecs records) hall2, hc]
        exact List.getLast?_eq_getLast (c0 :: cs) (List.cons_ne_nil c0 cs)

/-- Claim C6, amended: `summarize_records` never raises on an empty list
(reporting the named empty result with `lossCount = expectedCount` and
`lossPct = 100`) and never raises on a non-empty list in which at least one
record carries `tx_counter`; in that case a record missing one optional
field still contributes to the statistics of the fields it does have, with
mean/min/max of `rssi_dbm` and `delta_ms` computed independently over the
present values of the input list.  (With no `tx_counter` anywhere it raises:
see the counterexample.) -/
theorem summarize_never_raises_cases :
    (∀ e : Int, summarize e [] = some (.noPackets 0 none e 100)) ∧
    (∀ (e : Int) (records : List PRec), records ≠ [] →
      (∃ r ∈ records, (PRec.tx_counter r).isSome) →
      ∃ m : FullMetrics, summarize e records = some (.packets m) ∧
        m.meanRssi = pyMean? (records.filterMap PRec.rssi_dbm) ∧
        m.minRssi = (records.filterMap PRec.rssi_dbm).min? ∧
        m.maxRssi = (records.filterMap PRec.rssi_dbm).max? ∧
        m.meanDelta = pyMean? (records.filterMap PRec.delta_ms) ∧
        m.minDelta = (records.filterMap PRec.delta_ms).min? ∧
        m.maxDelta = (records.filterMap PRec.delta_ms).max?) := by
  constructor
  · intro e
    unfold summarize
    rw [if_pos rfl]
  · intro e records hne hex
    obtain ⟨r, hr, hs⟩ := hex
    have hr2 : r ∈ sortRecs records := (sortRecs_perm records).mem_iff.2 hr
    have hnn : (sortRecs records).filterMap PRec.tx_counter ≠ [] := by
      simp only [ne_eq, List.filterMap_eq_nil_iff]
      intro hall
      rw [hall r hr2] at hs
      cases hs
    cases hc : (sortRecs records).filterMap PRec.tx_counter with
    | nil => exact absurd hc hnn
    | cons c0 cs =>
      refine ⟨_, summarize_eq_packets hne hc,
        pyMean?_perm ((sortRecs_perm records).filterMap PRec.rssi_dbm),
        min?_perm ((sortRecs_perm records).filterMap PRec.rssi_dbm),
        max?_perm ((sortRecs_perm records).filterMap PRec.rssi_dbm),
        pyMean?_perm ((sortRecs_perm records).filterMap PRec.delta_ms),
        min?_perm ((sortRecs_perm records).filterMap PRec.delta_ms),
        max?_perm ((sortRecs_perm records).filterMap PRec.delta_ms)⟩

/-- Claim C10: whenever the earliest or latest record of the sorted order
has `txTimeMs` absent or equal to 0, the reported time span is NaN
(`none`), so a present-but-zero timestamp is not distinguished from a
missing one by the span computation. -/
theorem summarize_duration_nan_of_zero_or_missing :
    ∀ (e : Int) (records : List PRec) (m : FullMetrics),
      summarize e records = some (.packets m) →
      ((sortRecs records).head?.bind PRec.tx_unix_ms = none ∨
       (sortRecs records).head?.bind PRec.tx_unix_ms = some 0 ∨
       (sortRecs records).getLast?.bind PRec.tx_unix_ms = none ∨
       (sortRecs records).getLast?.bind PRec.tx_unix_ms = some 0) →
      m.durationS = none := by
  intro e records m h hdisj
  have hne : records ≠ [] := by
    intro he
    subst he
    unfold summarize at h
    rw [if_pos rfl] at h
    cases Option.some.inj h
  cases hc : (sortRecs records).filterMap PRec.tx_counter with
  | nil => rw [summarize_eq_none hne hc] at h; cases h
  | cons c0 cs =>
    rw [summarize_eq_packets hne hc] at h
    obtain rfl := (Summary.packets.inj (Option.some.inj h)).symm
    show (if _ then _ else _) = none
    rcases hdisj with hd | hd | hd | hd <;>
      rw [hd] <;> simp [pyTruthyNat]



/-- Record with a present-but-zero `txTimeMs`. -/
def recZeroTx : PRec := { tx_unix_ms := some 0, tx_counter := some 2, rssi_dbm := some (-45) }

/-- Witness for claim C2: the amended theorem applied at
`expectedCount = 200` and a concrete one-record list. -/
theorem summarize_loss_formula_witness :
    ∃ s : Summary, summarize 200 [recLateCounter] = some s ∧
      s.lossCount = max (200 - (([recLateCounter] : List PRec).length : Int)) 0 ∧
      s.lossPct =
        if (200 : Int) > 0 then some ((s.lossCount : Rat) / ((200 : Int) : Rat) * 100)
        else none := by
  obtain ⟨m, hm⟩ := @summarize_packets_exists 200 [recLateCounter] (by simp)
    ⟨recLateCounter, by simp, rfl⟩
  exact ⟨.packets m, hm,
    summarize_loss_formula.1 200 [recLateCounter] (.packets m) (by simp) hm⟩

/-- Witness for claim C3: the theorem applied at a concrete one-record
list, yielding the sortedness of its canonical order. -/
theorem summarize_order_invariant_witness :
    List.Pairwise keyLE (sortRecs [recLateCounter]) := by
  obtain ⟨m, hm⟩ := @summarize_packets_exists 200 [recLateCounter] (by simp)
    ⟨recLateCounter, by simp, rfl⟩
  exact (summarize_order_invariant 200 [recLateCounter] m hm).1

/-- Witness for claim C6: the theorem applied at `expectedCount = 7` and a
concrete one-record list. -/
theorem summarize_never_raises_cases_witness :
    ∃ m : FullMetrics, summarize 7 [recZeroTx] = some (.packets m) ∧
      m.meanRssi = pyMean? (([recZeroTx] : List PRec).filterMap PRec.rssi_dbm) ∧
      m.minRssi = (([recZeroTx] : List PRec).filterMap PRec.rssi_dbm).min? ∧
      m.maxRssi = (([recZeroTx] : List PRec).filterMap PRec.rssi_dbm).max? ∧
      m.meanDelta = pyMean? (([recZeroTx] : List PRec).filterMap PRec.delta_ms) ∧
      m.minDelta = (([recZeroTx] : List PRec).filterMap PRec.delta_ms).min? ∧
      m.maxDelta = (([recZeroTx] : List PRec).filterMap PRec.delta_ms).max? :=
  summarize_never_raises_cases.2 7 [recZeroTx] (by simp) ⟨recZeroTx, by simp, rfl⟩

/-- Witness for claim C10: a record whose `txTimeMs` is present but zero
produces a NaN time span. -/
theorem summarize_duration_nan_witness :
    ∃ m : FullMetrics, summarize 200 [recZeroTx] = some (.packets m) ∧
      m.durationS = none := by
  obtain ⟨m, hm⟩ := @summarize_packets_exists 200 [recZeroTx] (by simp)
    ⟨recZeroTx, by simp, rfl⟩
  exact ⟨m, hm, summarize_duration_nan_of_zero_or_missing 200 [recZeroTx] m hm
    (Or.inr (Or.inl (by decide)))⟩

lemma bufferAppend_step (m : Nat) (b : LiveBuffer) (p : Int × Int)
    (h1 : b.counters.length ≤ m) (h2 : b.rssis.length = b.counters.length) :
    (bufferAppend m b p).counters.length ≤ m ∧
    (bufferAppend m b p).rssis.length = (bufferAppend m b p).counters.length ∧
    ((bufferAppend m b p).counters.zip (bufferAppend m b p).rssis) <:+
      (b.counters.zip b.rssis ++ [p]) := by
  have hz : (b.counters ++ [p.1]).zip (b.rssis ++ [p.2]) =
      b.counters.zip b.rssis ++ [p] := by
    rw [List.zip_append h2.symm]
    rfl
  simp only [bufferAppend]
  by_cases hif : (b.counters ++ [p.1]).length > m
  · rw [if_pos hif]
    refine ⟨?_, ?_, ?_⟩
    · simp only [List.length_tail, List.length_append, List.length_singleton]
      omega
    · simp only [List.length_tail, List.length_append, List.length_singleton, h2]
    · rw [← List.tail_zip, hz]
      exact List.tail_suffix _
  · rw [if_neg hif]
    refine ⟨?_, ?_, ?_⟩
    · simp only [List.length_append, List.length_singleton] at hif ⊢
      omega
    · simp only [List.length_append, List.length_singleton, h2]
    · rw [hz]

lemma suffix_append_right {α : Type} {l1 l2 t : List α} (h : l1 <:+ l2) :
    l1 ++ t <:+ l2 ++ t := by
  obtain ⟨u, hu⟩ := h
  exact ⟨u, by rw [← hu, List.append_assoc]⟩

lemma bufferAppend_fold_inv (m : Nat) :
    ∀ (ps : List (Int × Int)) (b : LiveBuffer),
      b.counters.length ≤ m → b.rssis.length = b.counters.length →
      (ps.foldl (bufferAppend m) b).counters.length ≤ m ∧
      (ps.foldl (bufferAppend m) b).rssis.length =
        (ps.foldl (bufferAppend m) b).counters.length ∧
      ((ps.foldl (bufferAppend m) b).counters.zip (ps.foldl (bufferAppend m) b).rssis) <:+
        (b.counters.zip b.rssis ++ ps)
  | [], b, h1, h2 => ⟨h1, h2, by simp⟩
  | p :: ps, b, h1, h2 => by
    obtain ⟨g1, g2, g3⟩ := bufferAppend_step m b p h1 h2
    obtain ⟨i1, i2, i3⟩ := bufferAppend_fold_inv m ps (bufferAppend m b p) g1 g2
    refine ⟨i1, i2, ?_⟩
    have : (bufferAppend m b p).counters.zip (bufferAppend m b p).rssis ++ ps <:+
        (b.counters.zip b.rssis ++ [p]) ++ ps := suffix_append_right g3
    rw [List.append_assoc, List.singleton_append] at this
    exact i3.trans this

/-- Claim C4: after any sequence of appends from the empty buffer the
LiveBuffer length never exceeds `maxPoints`, the two deques stay in lock
step, eviction removes the oldest pair first (the retained pairs are a
suffix of the append sequence), and with `maxPoints = 3` appending
(1,-50), (2,-55), (3,-60), (4,-65) leaves exactly [(2,-55),(3,-60),(4,-65)]. -/
theorem live_buffer_bound :
    (∀ (m : Nat) (ps : List (Int × Int)),
      (ps.foldl (bufferAppend m) ⟨[], []⟩).counters.length ≤ m ∧
      (ps.foldl (bufferAppend m) ⟨[], []⟩).rssis.length =
        (ps.foldl (bufferAppend m) ⟨[], []⟩).counters.length ∧
      ((ps.foldl (bufferAppend m) ⟨[], []⟩).counters.zip
        (ps.foldl (bufferAppend m) ⟨[], []⟩).rssis) <:+ ps) ∧
    [((1 : Int), (-50 : Int)), (2, -55), (3, -60), (4, -65)].foldl (bufferAppend 3) ⟨[], []⟩ =
      ⟨[2, 3, 4], [-55, -60, -65]⟩ := by
  constructor
  · intro m ps
    have h := bufferAppend_fold_inv m ps ⟨[], []⟩ (by simp) rfl
    simpa using h
  · decide



lemma getLast?_range (n : Nat) (h : n ≠ 0) : (List.range n).getLast? = some (n - 1) := by
  cases n with
  | zero => exact absurd rfl h
  | succ k =>
    rw [List.range_succ]
    simp [List.getLast?_concat]

/-- Claim C5, amended: sessions are concatenated on the virtual index axis
with the next session starting 5 index units after the previous non-empty
session's last index (`xs[-1] + 5`), so after a session of `n` points at
indices 0..n-1 the next session starts at index `n + 4`: for a 3-point
session A at 0, 1, 2, session B's points occupy 7, 8 — not 8, 9. -/
theorem combined_offset_formula :
    ∀ (xsA ysA xsB ysB : List Int), xsA ≠ [] →
      combinedXs 0 [(xsA, ysA), (xsB, ysB)] =
        [List.range xsA.length,
         (List.range xsB.length).map (fun i => xsA.length + 4 + i)] := by
  intro xsA ysA xsB ysB h
  have hlen : xsA.length ≠ 0 := by simpa using h
  have hmap : (List.range xsA.length).map (fun i => 0 + i) = List.range xsA.length := by
    simp
  have hoff : xsA.length - 1 + 5 = xsA.length + 4 := by omega
  simp only [combinedXs, hmap, getLast?_range xsA.length hlen, hoff]

/-- Witness for claim C5: the amended formula applied at the concrete
3-point and 2-point sessions of the scenario. -/
theorem combined_offset_formula_witness :
    combinedXs 0 [(([1, 2, 3] : List Int), ([-50, -51, -52] : List Int)),
                  (([4, 5] : List Int), ([-53, -54] : List Int))] =
      [List.range ([1, 2, 3] : List Int).length,
       (List.range ([4, 5] : List Int).length).map
         (fun i => ([1, 2, 3] : List Int).length + 4 + i)] :=
  combined_offset_formula [1, 2, 3] [-50, -51, -52] [4, 5] [-53, -54] (by simp)


lemma matchNum_isSome_startsWith {lit line : List Char} (h : (matchNum lit line).isSome) :
    lit <+: line := by
  unfold matchNum at h
  by_cases hp : lit.isPrefixOf line
  · exact List.isPrefixOf_iff_prefix.1 hp
  · rw [if_neg hp] at h
    cases h

lemma matchScanStart_isSome_startsWith {line : List Char} (h : (matchScanStart line).isSome) :
    scanLit <+: line := by
  unfold matchScanStart at h
  by_cases hp : scanLit.isPrefixOf line
  · exact List.isPrefixOf_iff_prefix.1 hp
  · rw [if_neg hp] at h
    cases h

lemma matchDelta_isSome_startsWith {line : List Char} (h : (matchDelta line).isSome) :
    deltaLit <+: line := by
  unfold matchDelta at h
  by_cases hp : deltaLit.isPrefixOf line
  · exact List.isPrefixOf_iff_prefix.1 hp
  · rw [if_neg hp] at h
    cases h

lemma matchRssi_isSome_startsWith {line : List Char} (h : (matchRssi line).isSome) :
    rssiLit <+: line := by
  unfold matchRssi at h
  by_cases hp : rssiLit.isPrefixOf line
  · exact List.isPrefixOf_iff_prefix.1 hp
  · rw [if_neg hp] at h
    cases h

/-- The seven fixed literal labels, in the priority order of `parse_log`. -/
def offlineLits : List (List Char) :=
  [scanLit] ++ [blockStartLit] ++ [rxUnixLit] ++ [txCounterLit] ++
  [txUnixLit] ++ [deltaLit] ++ [rssiLit]

/-- The labels of the line patterns of `parse_log` that match a given line,
in priority order: the set of fields the offline Record Parser could
recognize on that line. -/
def offlineFired (line : List Char) : List (List Char) :=
  (if (matchScanStart line).isSome then [scanLit] else []) ++
  (if blockStartLit.isPrefixOf line then [blockStartLit] else []) ++
  (if (matchNum rxUnixLit line).isSome then [rxUnixLit] else []) ++
  (if (matchNum txCounterLit line).isSome then [txCounterLit] else []) ++
  (if (matchNum txUnixLit line).isSome then [txUnixLit] else []) ++
  (if (matchDelta line).isSome then [deltaLit] else []) ++
  (if (matchRssi line).isSome then [rssiLit] else [])

lemma if_singleton_sublist {α : Type} {c : Prop} [Decidable c] {x : α} :
    (if c then [x] else []).Sublist [x] := by
  by_cases hc : c
  · rw [if_pos hc]
  · rw [if_neg hc]
    exact List.nil_sublist [x]

lemma mem_if_singleton {α : Type} {c : Prop} [Decidable c] {x p : α}
    (h : p ∈ if c then [x] else []) : c ∧ p = x := by
  by_cases hc : c
  · rw [if_pos hc] at h
    exact ⟨hc, List.mem_singleton.1 h⟩
  · rw [if_neg hc] at h
    cases h

lemma offlineFired_sublist (line : List Char) :
    (offlineFired line).Sublist offlineLits :=
  ((((((if_singleton_sublist.append if_singleton_sublist).append
    if_singleton_sublist).append if_singleton_sublist).append
    if_singleton_sublist).append if_singleton_sublist).append if_singleton_sublist)

lemma offlineFired_startsWith {line p : List Char} (hp : p ∈ offlineFired line) :
    p <+: line := by
  unfold offlineFired at hp
  rcases List.mem_append.1 hp with hp | hp
  on_goal 2 =>
    obtain ⟨hc, rfl⟩ := mem_if_singleton hp
    exact matchRssi_isSome_startsWith hc
  rcases List.mem_append.1 hp with hp | hp
  on_goal 2 =>
    obtain ⟨hc, rfl⟩ := mem_if_singleton hp
    exact matchDelta_isSome_startsWith hc
  rcases List.mem_append.1 hp with hp | hp
  on_goal 2 =>
    obtain ⟨hc, rfl⟩ := mem_if_singleton hp
    exact matchNum_isSome_startsWith hc
  rcases List.mem_append.1 hp with hp | hp
  on_goal 2 =>
    obtain ⟨hc, rfl⟩ := mem_if_singleton hp
    exact matchNum_isSome_startsWith hc
  rcases List.mem_append.1 hp with hp | hp
  on_goal 2 =>
    obtain ⟨hc, rfl⟩ := mem_if_singleton hp
    exact matchNum_isSome_startsWith hc
  rcases List.mem_append.1 hp with hp | hp
  on_goal 2 =>
    obtain ⟨hc, rfl⟩ := mem_if_singleton hp
    exact List.isPrefixOf_iff_prefix.1 hc
  obtain ⟨hc, rfl⟩ := mem_if_singleton hp
  exact matchScanStart_isSome_startsWith hc

lemma offlineLits_pairwise :
    List.Pairwise (fun p q => p.isPrefixOf q = false ∧ q.isPrefixOf p = false)
      offlineLits := by decide

/-- Claim C8, amended: in the offline Record Parser at most one of the
seven line patterns can match any given line (their literal labels are
mutually non-prefixing), so no line ever writes two fields there; the
reduced two-field streaming variant, however, applies both of its searches
to each line, and a line matching both writes both fields (see the
counterexample). -/
theorem offline_at_most_one_field (line : List Char) :
    (offlineFired line).length ≤ 1 := by
  have hPW := List.Pairwise.sublist (offlineFired_sublist line) offlineLits_pairwise
  cases hf : offlineFired line with
  | nil => simp
  | cons a t =>
    cases t with
    | nil => simp
    | cons b t2 =>
      exfalso
      rw [hf] at hPW
      have hab := (List.pairwise_cons.1 hPW).1 b (List.mem_cons_self b t2)
      have ha : a <+: line := @offlineFired_startsWith line a (by rw [hf]; simp)
      have hb : b <+: line := @offlineFired_startsWith line b (by rw [hf]; simp)
      rcases List.prefix_or_prefix_of_prefix ha hb with hc | hc
      · rw [← List.isPrefixOf_iff_prefix, hab.1] at hc
        cases hc
      · rw [← List.isPrefixOf_iff_prefix, hab.2] at hc
        cases hc


/-- Claim C9: the CSV export writes one data row per record, preceded by
the fixed header `tx_unix_ms(phone), rx_unix_ms(esp32), payload_counter,
delta_ms, rssi_dbm, tx_device_name`; each row holds exactly those six cells
in that order, and a field absent from a record is written as the empty
string. -/
theorem write_csv_contract :
    (∀ (records : List CsvRec) (rows : List (List String)),
      writeCsv records = some rows →
      rows.length = records.length + 1 ∧
      rows.head? = some csvHeader ∧
      ∀ (i : Nat) (hi : i < records.length),
        rows[i + 1]? = some [csvCellInt (records.get ⟨i, hi⟩).tx_unix_ms_phone,
          csvCellInt (records.get ⟨i, hi⟩).rx_unix_ms_esp32,
          csvCellInt (records.get ⟨i, hi⟩).payload_counter,
          csvCellInt (records.get ⟨i, hi⟩).delta_ms,
          csvCellInt (records.get ⟨i, hi⟩).rssi_dbm,
          csvCellStr (records.get ⟨i, hi⟩).tx_device_name]) ∧
    csvCellInt none = "" ∧ csvCellStr none = "" := by
  refine ⟨?_, rfl, rfl⟩
  intro records rows h
  unfold writeCsv at h
  by_cases hne : records = []
  · rw [if_pos hne] at h
    cases h
  · rw [if_neg hne] at h
    obtain rfl := (Option.some.inj h).symm
    refine ⟨by simp, rfl, ?_⟩
    intro i hi
    rw [List.getElem?_cons_succ, List.getElem?_map, List.getElem?_eq_getElem hi]
    simp [csvRow, List.get_eq_getElem]

/-- Concrete record for the C9 witness, with two absent fields. -/
def csvW : CsvRec :=
  { rx_unix_ms_esp32 := some 1000, payload_counter := some 5,
    rssi_dbm := some (-60), tx_device_name := some "A72Aziz" }

/-- Witness for claim C9: the contract applied to a concrete one-record
list (whose record leaves two fields absent). -/
theorem write_csv_contract_witness :
    ([csvHeader, csvRow csvW] : List (List String)).length =
      ([csvW] : List CsvRec).length + 1 :=
  (write_csv_contract.1 [csvW] [csvHeader, csvRow csvW] rfl).1


end BleLogs
